import Mathlib

/-!
Verification of `vmm-sys-util`'s `src/metric.rs`.

The module defines a trait `Metric` with four operations — `add`, `inc`,
`count`, `reset` — where `inc` has the default body `self.add(1)` and
`reset` the default body `{}` (a no-op).  Two implementations are given:
the unit type `()` (every operation a no-op, `count` fixed at 0) and
`AtomicUsize` (`add` is `fetch_add(value, Ordering::Relaxed)`, `count` is
`load(Ordering::Relaxed)`).

Embedding choices:
* `usize` is modelled as a natural number kept below `2 ^ w`, with the word
  width `w` a parameter (64 on the reference platforms); `fetch_add` wraps
  modulo `2 ^ w`, exactly as the hardware atomic does.
* Each trait method mutates interior state through `&self`, so methods are
  modelled as state transformers.  `count` returns the (unchanged) state
  together with the loaded value, mirroring that an atomic load does not
  write memory.
* A concurrent execution of single-instruction atomic read-modify-writes on
  one location linearizes to some sequential interleaving of the same
  operations, so a run of `n` concurrent `inc()` calls is modelled as a run
  of a list containing `n` `inc` operations.
-/

/-- State of Rust's `AtomicUsize` on a platform whose `usize` is `w` bits:
a single unsigned machine word. -/
structure AtomicUsize (w : Nat) where
  val : Nat

/-- `AtomicUsize::fetch_add(value, Ordering::Relaxed)`: stores the wrapped
sum and returns the previous value. -/
def AtomicUsize.fetch_add {w : Nat} (s : AtomicUsize w) (v : Nat) :
    AtomicUsize w × Nat :=
  (⟨(s.val + v) % 2 ^ w⟩, s.val)

/-- `AtomicUsize::load(Ordering::Relaxed)`: returns the current value and
leaves the state untouched. -/
def AtomicUsize.load {w : Nat} (s : AtomicUsize w) : AtomicUsize w × Nat :=
  (s, s.val)

/-- The `Metric` trait from `src/metric.rs`: the operation dictionary of an
implementation with state type `σ`.  The default bodies of `inc`
(`self.add(1)`) and `reset` (`{}`, a no-op) are the trait's defaults. -/
structure Metric (σ : Type) where
  add : σ → Nat → σ
  count : σ → σ × Nat
  inc : σ → σ := fun s => add s 1
  reset : σ → σ := fun s => s

/-- `impl Metric for ()`: `add` ignores its argument, `count` returns 0;
`inc` and `reset` are the trait defaults. -/
def unitMetric : Metric Unit where
  add s _ := s
  count s := (s, 0)

/-- `impl Metric for AtomicUsize`: `add` is `fetch_add` (result discarded),
`count` is `load`; `inc` and `reset` are the trait defaults. -/
def atomicMetric (w : Nat) : Metric (AtomicUsize w) where
  add s v := (s.fetch_add v).1
  count s := s.load

/-- A call issued against a counter: `add(v)`, `inc()` or `reset()`. -/
inductive Op where
  | add (v : Nat) : Op
  | inc : Op
  | reset : Op

/-- Execute one call on the counter state. -/
def Metric.step {σ : Type} (M : Metric σ) (s : σ) : Op → σ
  | Op.add v => M.add s v
  | Op.inc => M.inc s
  | Op.reset => M.reset s

/-- Execute a sequence of calls left to right. -/
def Metric.run {σ : Type} (M : Metric σ) (s : σ) : List Op → σ
  | [] => s
  | o :: os => M.run (M.step s o) os

/-! Helper lemmas shared by several results. -/

theorem atomic_step_add (w : Nat) (s : AtomicUsize w) (v : Nat) :
    (atomicMetric w).step s (Op.add v) = ⟨(s.val + v) % 2 ^ w⟩ := rfl

theorem atomic_step_inc (w : Nat) (s : AtomicUsize w) :
    (atomicMetric w).step s Op.inc = ⟨(s.val + 1) % 2 ^ w⟩ := rfl

theorem atomic_run_adds (w : Nat) (s : AtomicUsize w) (vs : List Nat)
    (h : s.val % 2 ^ w = s.val) :
    (atomicMetric w).run s (vs.map Op.add) =
      ⟨(s.val + vs.sum) % 2 ^ w⟩ := by
  induction vs generalizing s with
  | nil =>
    simp only [List.map_nil, Metric.run, List.sum_nil, Nat.add_zero, h]
  | cons v rest ih =>
    rw [List.map_cons, Metric.run, atomic_step_add,
      ih ⟨(s.val + v) % 2 ^ w⟩ (Nat.mod_mod_of_dvd _ dvd_rfl)]
    simp only [Nat.mod_add_mod, List.sum_cons, Nat.add_assoc]

theorem atomic_run_incs (w n : Nat) (s : AtomicUsize w)
    (h : s.val % 2 ^ w = s.val) :
    (atomicMetric w).run s (List.replicate n Op.inc) =
      ⟨(s.val + n) % 2 ^ w⟩ := by
  induction n generalizing s with
  | zero =>
    simp only [List.replicate_zero, Metric.run, Nat.add_zero, h]
  | succ m ih =>
    rw [List.replicate_succ, Metric.run, atomic_step_inc,
      ih ⟨(s.val + 1) % 2 ^ w⟩ (Nat.mod_mod_of_dvd _ dvd_rfl)]
    simp only [Nat.mod_add_mod]
    have hm : s.val + 1 + m = s.val + (m + 1) := by omega
    rw [hm]

/-- C1: starting from an atomic counter at 0, a single-threaded sequence of
calls add(v1), ..., add(vn) leaves count() returning (v1 + ... + vn) mod 2^W,
where W is the width of the platform's unsigned machine word. -/
theorem C1_atomic_add_wraparound (w : Nat) (vs : List Nat) :
    ((atomicMetric w).count ((atomicMetric w).run ⟨0⟩ (vs.map Op.add))).2 =
      vs.sum % 2 ^ w := by
  rw [atomic_run_adds w ⟨0⟩ vs (Nat.zero_mod _)]
  show (0 + vs.sum) % 2 ^ w = vs.sum % 2 ^ w
  rw [Nat.zero_add]

/-- C2: for both the no-op and the atomic variant, inc() is observationally
equivalent to add(1): the resulting states are equal, hence every subsequent
count() observation agrees. -/
theorem C2_inc_is_add_one (w : Nat) (s : AtomicUsize w) (u : Unit) :
    (atomicMetric w).inc s = (atomicMetric w).add s 1 ∧
    unitMetric.inc u = unitMetric.add u 1 ∧
    ((atomicMetric w).count ((atomicMetric w).inc s)).2 =
      ((atomicMetric w).count ((atomicMetric w).add s 1)).2 ∧
    (unitMetric.count (unitMetric.inc u)).2 =
      (unitMetric.count (unitMetric.add u 1)).2 :=
  ⟨rfl, rfl, rfl, rfl⟩

/-- C3: for the no-op variant, after every finite sequence of
add/inc/reset calls, count() returns 0. -/
theorem C3_noop_count_zero (ops : List Op) :
    (unitMetric.count (unitMetric.run () ops)).2 = 0 := rfl

/-- C4: the atomic variant inherits the trait's default reset, so reset()
leaves the state unchanged and count() after reset() equals count()
before. -/
theorem C4_atomic_reset_noop (w : Nat) (s : AtomicUsize w) :
    (atomicMetric w).reset s = s ∧
    ((atomicMetric w).count ((atomicMetric w).reset s)).2 =
      ((atomicMetric w).count s).2 :=
  ⟨rfl, rfl⟩

/-- C5 counterexample: on the atomic variant (64-bit word) in state 5,
count() immediately after reset() returns 5, not 0 — reset does not clear
the atomic counter. -/
theorem C5_reset_counterexample :
    ¬ (((atomicMetric 64).count ((atomicMetric 64).reset ⟨5⟩)).2 = 0) := by
  decide

/-- C5 amended: only variants that override reset clear the counter; among
the two provided variants, count() after reset() is 0 for the no-op variant
(count is constantly 0), while for the atomic variant reset() leaves count()
unchanged from before. -/
theorem C5_reset_amended (w : Nat) (s : AtomicUsize w) (u : Unit) :
    (unitMetric.count (unitMetric.reset u)).2 = 0 ∧
    ((atomicMetric w).count ((atomicMetric w).reset s)).2 =
      ((atomicMetric w).count s).2 :=
  ⟨rfl, rfl⟩

/-- C6: from an atomic counter at 0, the sequential calls add(5), inc(),
add(10) leave count() returning 16 (on any word width that can hold 16,
in particular the 64-bit reference platform). -/
theorem C6_scenario (w : Nat) (h : 16 < 2 ^ w) :
    ((atomicMetric w).count
        ((atomicMetric w).run ⟨0⟩ [Op.add 5, Op.inc, Op.add 10])).2 = 16 := by
  show (((0 + 5) % 2 ^ w + 1) % 2 ^ w + 10) % 2 ^ w = 16
  have h5 : (0 + 5) % 2 ^ w = 5 := by
    rw [Nat.zero_add]
    exact Nat.mod_eq_of_lt (by omega)
  rw [h5]
  have h6 : (5 + 1) % 2 ^ w = 6 := Nat.mod_eq_of_lt (by omega)
  rw [h6]
  rw [Nat.mod_eq_of_lt (show 6 + 10 < 2 ^ w by omega)]

/-- C6 witness: the scenario evaluated on the 64-bit word width. -/
theorem C6_scenario_witness :
    16 < 2 ^ 64 ∧
    ((atomicMetric 64).count
        ((atomicMetric 64).run ⟨0⟩ [Op.add 5, Op.inc, Op.add 10])).2 = 16 :=
  ⟨by norm_num, C6_scenario 64 (by norm_num)⟩

/-- C7: all four operations of both variants are total functions of the
state — they return normally for every state and argument, with no error
case in their types — and overflow on the atomic add wraps silently modulo
2^W, keeping the stored value below 2^W. -/
theorem C7_total_and_wrapping (w : Nat) (s : AtomicUsize w) (v : Nat)
    (u : Unit) :
    (atomicMetric w).add s v = ⟨(s.val + v) % 2 ^ w⟩ ∧
    ((atomicMetric w).add s v).val < 2 ^ w ∧
    (atomicMetric w).count s = (s, s.val) ∧
    (atomicMetric w).inc s = ⟨(s.val + 1) % 2 ^ w⟩ ∧
    (atomicMetric w).reset s = s ∧
    unitMetric.add u v = () ∧
    unitMetric.count u = ((), 0) ∧
    unitMetric.inc u = () ∧
    unitMetric.reset u = () := by
  refine ⟨rfl, ?_, rfl, rfl, rfl, rfl, rfl, rfl, rfl⟩
  exact Nat.mod_lt _ (pow_pos (by norm_num) w)

/-- C8 counterexample: on the 64-bit word width, 2^64 inc() calls on a fresh
atomic counter (each call a single atomic fetch_add, so any concurrent
schedule linearizes to this sequence) leave count() returning 0, not 2^64 —
the tally wraps, so count() does not equal n for every n. -/
theorem C8_concurrent_counterexample :
    ((atomicMetric 64).count
        ((atomicMetric 64).run ⟨0⟩ (List.replicate (2 ^ 64) Op.inc))).2 = 0 ∧
    (2 ^ 64 : Nat) ≠ 0 := by
  constructor
  · rw [atomic_run_incs 64 (2 ^ 64) ⟨0⟩ (Nat.zero_mod _)]
    show (0 + 2 ^ 64) % 2 ^ 64 = 0
    rw [Nat.zero_add, Nat.mod_self]
  · norm_num

/-- C8 amended: after n inc() calls on a fresh atomic counter — in any
interleaving, since each inc is one atomic fetch_add — count() returns
n mod 2^W, hence exactly n whenever n < 2^W; no updates are lost. -/
theorem C8_concurrent_incs (w n : Nat) (h : n < 2 ^ w) :
    ((atomicMetric w).count
        ((atomicMetric w).run ⟨0⟩ (List.replicate n Op.inc))).2 = n := by
  rw [atomic_run_incs w n ⟨0⟩ (Nat.zero_mod _)]
  show (0 + n) % 2 ^ w = n
  rw [Nat.zero_add]
  exact Nat.mod_eq_of_lt h

/-- C8 witness: the spec scenario of 100 inc() calls on the 64-bit word
width yields count() = 100. -/
theorem C8_concurrent_incs_witness :
    100 < 2 ^ 64 ∧
    ((atomicMetric 64).count
        ((atomicMetric 64).run ⟨0⟩ (List.replicate 100 Op.inc))).2 = 100 :=
  ⟨by norm_num, C8_concurrent_incs 64 100 (by norm_num)⟩

/-- C9: for both variants count() is a pure observer: it returns the state
unchanged, so two consecutive count() calls with nothing in between return
the same value. -/
theorem C9_count_pure (w : Nat) (s : AtomicUsize w) (u : Unit) :
    ((atomicMetric w).count s).1 = s ∧
    (unitMetric.count u).1 = u ∧
    ((atomicMetric w).count (((atomicMetric w).count s).1)).2 =
      ((atomicMetric w).count s).2 ∧
    (unitMetric.count ((unitMetric.count u).1)).2 =
      (unitMetric.count u).2 :=
  ⟨rfl, rfl, rfl, rfl⟩

/-- C10: on the atomic variant under sequential execution, add is
commutative: add(a) then add(b) yields the same state as add(b) then
add(a), from every initial state. -/
theorem C10_add_comm (w : Nat) (s : AtomicUsize w) (a b : Nat) :
    (atomicMetric w).add ((atomicMetric w).add s a) b =
      (atomicMetric w).add ((atomicMetric w).add s b) a := by
  show (⟨((s.val + a) % 2 ^ w + b) % 2 ^ w⟩ : AtomicUsize w) =
    ⟨((s.val + b) % 2 ^ w + a) % 2 ^ w⟩
  rw [Nat.mod_add_mod, Nat.mod_add_mod, Nat.add_right_comm]
